import Mathlib

/-!
# Verification of the BLE MQTT transport translator

Shallow embedding of
`libraries/c_sdk/standard/ble/src/services/mqtt_ble/iot_ble_mqtt_transport.c`.

Byte buffers are `List Nat`, each element standing for a `uint8_t` (reads mask
with `% 256`).  Machine-integer truncation (`uint16_t`, `size_t`) is written
out explicitly where the source relies on it.  Reads past the end of a buffer
(undefined behaviour in C) surface as the model error `MQTTOutOfRange`, and a
failed `configASSERT` (fatal in FreeRTOS) surfaces as `MQTTAssertFailed`; both
are model artifacts, distinct from the `MQTTStatus_t` values the source
returns.  External collaborators (the BLE structured serializer/deserializer
and the BLE channel) are abstracted as record-of-functions environments, as
the source only depends on their status/buffer results.
-/

/-- `MQTTStatus_t` values used by the source, extended with two model-only
outcomes: `MQTTOutOfRange` for a buffer access past the end (C undefined
behaviour) and `MQTTAssertFailed` for a failed `configASSERT` (fatal). -/
inductive MStatus where
  | MQTTSuccess
  | MQTTBadParameter
  | MQTTNoMemory
  | MQTTSendFailed
  | MQTTRecvFailed
  | MQTTOutOfRange
  | MQTTAssertFailed
  deriving DecidableEq, Repr

/-- `MQTTQoS_t`. -/
inductive MQTTQoS where
  | MQTTQoS0
  | MQTTQoS1
  | MQTTQoS2
  deriving DecidableEq, Repr

/-- Read one byte `buf[i]` (a `uint8_t`, hence the `% 256` mask); reading past
the end of the buffer is undefined behaviour in C and is modelled as the
`MQTTOutOfRange` error. -/
def rb (buf : List Nat) (i : Nat) : Except MStatus Nat :=
  match buf[i]? with
  | some b => .ok (b % 256)
  | none => .error .MQTTOutOfRange

/-- `getIntFromTwoBytes`: big-endian `uint16_t` from `buf[i]`, `buf[i+1]`. -/
def getIntFromTwoBytes (buf : List Nat) (i : Nat) : Except MStatus Nat :=
  match rb buf i with
  | .error s => .error s
  | .ok hi =>
    match rb buf (i + 1) with
    | .error s => .error s
    | .ok lo => .ok (hi * 256 + lo)

/-- A `memcpy` of `n` bytes starting at `buf[i]` (used for the heap copy of a
PUBLISH topic name). -/
def readSlice (buf : List Nat) (i : Nat) : Nat → Except MStatus (List Nat)
  | 0 => .ok []
  | n + 1 =>
    match rb buf i with
    | .error s => .error s
    | .ok b =>
      match readSlice buf (i + 1) n with
      | .error s => .error s
      | .ok rest => .ok (b :: rest)

/-- `convertIntToQos`: 0 ↦ QoS0, 1 ↦ QoS1, anything else downgraded to QoS1
(the source logs a warning and defaults). -/
def convertIntToQos (q : Nat) : MQTTQoS :=
  match q with
  | 0 => .MQTTQoS0
  | 1 => .MQTTQoS1
  | _ => .MQTTQoS1

/-- `REMAINING_LENGTH_INVALID` sentinel (268435456 = 128^4). -/
def REMAINING_LENGTH_INVALID : Nat := 268435456

/-- The do-while loop of `getRemainingLength`: before each byte is read the
multiplier is checked against `128^3`; a 5th continuation byte therefore
yields the `REMAINING_LENGTH_INVALID` sentinel (an `.ok` value, exactly as the
source returns the sentinel rather than an error status).  The pair carries
`(remainingLength, encodedLength)`. -/
def getRemainingLengthLoop : List Nat → Nat → Nat → Nat → Except MStatus (Nat × Nat)
  | l, mult, acc, c =>
    if 2097152 < mult then .ok (REMAINING_LENGTH_INVALID, c)
    else
      match l with
      | [] => .error .MQTTOutOfRange
      | b :: rest =>
        let b := b % 256
        let acc := acc + b % 128 * mult
        if 128 ≤ b then getRemainingLengthLoop rest (mult * 128) acc (c + 1)
        else .ok (acc, c + 1)

/-- `getRemainingLength( &buf[i], &encodedLength )`. -/
def getRemainingLength (buf : List Nat) (i : Nat) : Except MStatus (Nat × Nat) :=
  getRemainingLengthLoop (buf.drop i) 1 0 0

/-- `encodeRemainingLength`: greedy base-128 with the continuation bit set on
all but the final byte (the do-while always emits at least one byte). -/
def encodeRemainingLength (n : Nat) : List Nat :=
  if n < 128 then [n]
  else (n % 128 + 128) :: encodeRemainingLength (n / 128)
termination_by n
decreasing_by
  exact Nat.div_lt_self (by omega) (by omega)

theorem encodeRemainingLength_length_pos (n : Nat) :
    0 < (encodeRemainingLength n).length := by
  unfold encodeRemainingLength
  split <;> simp

theorem encodeRemainingLength_length_le (n : Nat) :
    ∀ k, 0 < k → n < 128 ^ k → (encodeRemainingLength n).length ≤ k := by
  induction n using Nat.strong_induction_on with
  | _ n ih =>
    intro k hk hn
    unfold encodeRemainingLength
    split
    · simpa using hk
    · rename_i h
      have hk2 : 2 ≤ k := by
        by_contra hlt
        have hk1 : k = 1 := by omega
        subst hk1
        simp at hn
        omega
      have hdiv : n / 128 < 128 ^ (k - 1) := by
        have : n < 128 * 128 ^ (k - 1) := by
          have : 128 * 128 ^ (k - 1) = 128 ^ k := by
            have : k - 1 + 1 = k := by omega
            calc 128 * 128 ^ (k - 1) = 128 ^ (k - 1 + 1) := by ring
              _ = 128 ^ k := by rw [this]
          omega
        exact Nat.div_lt_of_lt_mul this
      have := ih (n / 128) (Nat.div_lt_self (by omega) (by omega)) (k - 1)
        (by omega) hdiv
      simp only [List.length_cons]
      omega

theorem decode_encode_aux (n : Nat) :
    ∀ rest mult acc c,
      mult * 128 ^ ((encodeRemainingLength n).length - 1) ≤ 2097152 →
      getRemainingLengthLoop (encodeRemainingLength n ++ rest) mult acc c =
        .ok (acc + n * mult, c + (encodeRemainingLength n).length) := by
  induction n using Nat.strong_induction_on with
  | _ n ih =>
    intro rest mult acc c hfit
    by_cases h : n < 128
    · rw [encodeRemainingLength] at hfit ⊢
      rw [if_pos h] at hfit ⊢
      simp only [List.length_cons, List.length_nil] at hfit
      simp only [List.cons_append, List.nil_append]
      rw [getRemainingLengthLoop]
      have hmult : ¬ 2097152 < mult := by simpa using hfit
      rw [if_neg hmult]
      simp only []
      have hb : n % 256 = n := Nat.mod_eq_of_lt (by omega)
      rw [hb]
      have hcont : ¬ 128 ≤ n := by omega
      rw [if_neg hcont]
      have hn128 : n % 128 = n := Nat.mod_eq_of_lt h
      rw [hn128]
      simp
    · rw [encodeRemainingLength] at hfit ⊢
      rw [if_neg h] at hfit ⊢
      simp only [List.length_cons] at hfit
      have hlenpos := encodeRemainingLength_length_pos (n / 128)
      have hmult : ¬ 2097152 < mult := by
        have h1 : 1 ≤ 128 ^ ((encodeRemainingLength (n / 128)).length + 1 - 1) :=
          Nat.one_le_pow _ _ (by omega)
        have := Nat.le_trans (Nat.le_mul_of_pos_right mult (by omega)) hfit
        omega
      simp only [List.cons_append]
      rw [getRemainingLengthLoop]
      rw [if_neg hmult]
      simp only []
      have hb : (n % 128 + 128) % 256 = n % 128 + 128 := by
        have := Nat.mod_lt n (show 0 < 128 by omega)
        omega
      rw [hb]
      have hcont : 128 ≤ n % 128 + 128 := by omega
      rw [if_pos hcont]
      have hdat : (n % 128 + 128) % 128 = n % 128 := by omega
      rw [hdat]
      have hfit' : mult * 128 * 128 ^ ((encodeRemainingLength (n / 128)).length - 1) ≤ 2097152 := by
        have : mult * 128 * 128 ^ ((encodeRemainingLength (n / 128)).length - 1)
            = mult * 128 ^ ((encodeRemainingLength (n / 128)).length + 1 - 1) := by
          have h128 : (128 : Nat) * 128 ^ ((encodeRemainingLength (n / 128)).length - 1)
              = 128 ^ ((encodeRemainingLength (n / 128)).length) := by
            have : (encodeRemainingLength (n / 128)).length - 1 + 1
                = (encodeRemainingLength (n / 128)).length := by omega
            calc (128 : Nat) * 128 ^ ((encodeRemainingLength (n / 128)).length - 1)
                = 128 ^ ((encodeRemainingLength (n / 128)).length - 1 + 1) := by ring
              _ = _ := by rw [this]
          calc mult * 128 * 128 ^ ((encodeRemainingLength (n / 128)).length - 1)
              = mult * (128 * 128 ^ ((encodeRemainingLength (n / 128)).length - 1)) := by ring
            _ = mult * 128 ^ ((encodeRemainingLength (n / 128)).length) := by rw [h128]
            _ = mult * 128 ^ ((encodeRemainingLength (n / 128)).length + 1 - 1) := by
                congr 1
        rw [this]; exact hfit
      rw [ih (n / 128) (Nat.div_lt_self (by omega) (by omega)) rest (mult * 128)
        (acc + (n % 128) * mult) (c + 1) hfit']
      have hmul : n % 128 * mult + n / 128 * (mult * 128) = n * mult := by
        have hsplit : n % 128 + 128 * (n / 128) = n := Nat.mod_add_div n 128
        calc n % 128 * mult + n / 128 * (mult * 128)
            = (n % 128 + 128 * (n / 128)) * mult := by ring
          _ = n * mult := by rw [hsplit]
      have h2 : c + 1 + (encodeRemainingLength (n / 128)).length
          = c + ((encodeRemainingLength (n / 128)).length + 1) := by omega
      rw [Nat.add_assoc, hmul]
      simp only [List.length_cons]
      rw [h2]

/-- C5 helper: the full decode of a full encode, at the front of the buffer. -/
theorem getRemainingLength_encode (n : Nat) (h : n ≤ 268435455) :
    getRemainingLength (encodeRemainingLength n) 0 =
      .ok (n, (encodeRemainingLength n).length) := by
  have hlen : (encodeRemainingLength n).length ≤ 4 :=
    encodeRemainingLength_length_le n 4 (by omega) (by norm_num; omega)
  have hfit : 1 * 128 ^ ((encodeRemainingLength n).length - 1) ≤ 2097152 := by
    have : (encodeRemainingLength n).length - 1 ≤ 3 := by omega
    calc 1 * 128 ^ ((encodeRemainingLength n).length - 1)
        = 128 ^ ((encodeRemainingLength n).length - 1) := by ring
      _ ≤ 128 ^ 3 := Nat.pow_le_pow_right (by omega) this
      _ = 2097152 := by norm_num
  have := decode_encode_aux n [] 1 0 0 hfit
  simp only [List.append_nil] at this
  unfold getRemainingLength
  simp only [List.drop_zero]
  rw [this]
  simp

/-- `MQTTConnectInfo_t` as populated by `parseConnect`.  The client id,
username and password are borrowed slices of the input: the source stores
raw pointers without reading the bytes, so the model records start offsets. -/
structure MQTTConnectInfo where
  cleanSession : Bool := false
  keepAliveSeconds : Nat := 0
  clientIdentifierLength : Nat := 0
  clientIdentifierStart : Nat := 0
  userNameLength : Nat := 0
  userNameStart : Nat := 0
  passwordLength : Nat := 0
  passwordStart : Nat := 0
  deriving DecidableEq, Repr

/-- The `while( buf[ bufferIndex ] != 77U )` scan of `parseConnect`: the index
of the first byte equal to `'M'` (77).  The C loop is not bounded by the
buffer, so a buffer without such a byte scans out of bounds (modelled as
`MQTTOutOfRange`). -/
def findMQTT (buf : List Nat) : Except MStatus Nat :=
  match buf.findIdx? (fun b => b % 256 == 77) with
  | some i => .ok i
  | none => .error .MQTTOutOfRange

/-- The optional will-topic/will-payload fields of a CONNECT packet
(`willFlag` branch of `parseConnect`); the decoded values are dropped by the
source (local `willInfo`), only the advanced cursor survives. -/
def parseConnectWill (buf : List Nat) (willFlag : Bool) (idx : Nat) :
    Except MStatus Nat :=
  if willFlag then
    match getIntFromTwoBytes buf idx with
    | .error s => .error s
    | .ok wtLen =>
      if wtLen = 0 then .error .MQTTBadParameter
      else
        match getIntFromTwoBytes buf (idx + 2 + wtLen) with
        | .error s => .error s
        | .ok wpLen => .ok (idx + 2 + wtLen + 2 + wpLen)
  else .ok idx

/-- The optional username field (`usernameFlag` branch of `parseConnect`):
returns `(length, start, cursor after the field)`. -/
def parseConnectUsername (buf : List Nat) (usernameFlag : Bool) (idx : Nat) :
    Except MStatus (Nat × Nat × Nat) :=
  if usernameFlag then
    match getIntFromTwoBytes buf idx with
    | .error s => .error s
    | .ok l =>
      if l = 0 then .error .MQTTBadParameter
      else .ok (l, idx + 2, idx + 2 + l)
  else .ok (0, 0, idx)

/-- The optional password field (`passwordFlag` branch of `parseConnect`):
returns `(length, start)`. -/
def parseConnectPassword (buf : List Nat) (passwordFlag : Bool) (idx : Nat) :
    Except MStatus (Nat × Nat) :=
  if passwordFlag then
    match getIntFromTwoBytes buf idx with
    | .error s => .error s
    | .ok l =>
      if l = 0 then .error .MQTTBadParameter
      else .ok (l, idx + 2)
  else .ok (0, 0)

/-- `parseConnect`.  After the initial `configASSERT` on the packet-type
nibble, the remaining-length field is skipped by scanning for the literal
`'M'` of `"MQTT"` (`findMQTT`); with `m` that index, the protocol level is at
`m+4`, the connect flags at `m+5`, keep-alive at `m+6..7`, the client id
length at `m+8..9` and the client id bytes from `m+10`.  A level other than
4 or a set reserved (LSB) flag bit makes the status `MQTTBadParameter` before
any later field is touched, exactly as the status guards in the source. -/
def parseConnect (buf : List Nat) : Except MStatus MQTTConnectInfo :=
  match rb buf 0 with
  | .error s => .error s
  | .ok b0 =>
    if b0 / 16 ≠ 1 then .error .MQTTAssertFailed
    else
      match findMQTT buf with
      | .error s => .error s
      | .ok m =>
        match rb buf (m + 4) with
        | .error s => .error s
        | .ok level =>
          match rb buf (m + 5) with
          | .error s => .error s
          | .ok flags =>
            if level ≠ 4 ∨ flags % 2 = 1 then .error .MQTTBadParameter
            else
              match getIntFromTwoBytes buf (m + 6) with
              | .error s => .error s
              | .ok keepAlive =>
                match getIntFromTwoBytes buf (m + 8) with
                | .error s => .error s
                | .ok cidLen =>
                  if cidLen = 0 then .error .MQTTBadParameter
                  else
                    match parseConnectWill buf (flags / 4 % 2 = 1) (m + 10 + cidLen) with
                    | .error s => .error s
                    | .ok afterWill =>
                      match parseConnectUsername buf (flags / 128 = 1) afterWill with
                      | .error s => .error s
                      | .ok (unLen, unStart, afterUser) =>
                        match parseConnectPassword buf (flags / 64 % 2 = 1) afterUser with
                        | .error s => .error s
                        | .ok (pwLen, pwStart) =>
                          .ok { cleanSession := flags / 2 % 2 = 1
                                keepAliveSeconds := keepAlive
                                clientIdentifierLength := cidLen
                                clientIdentifierStart := m + 10
                                userNameLength := unLen
                                userNameStart := unStart
                                passwordLength := pwLen
                                passwordStart := pwStart }

/-- Observer: the protocol-level byte of a CONNECT buffer, located exactly as
`parseConnect` locates it (scan for `'M'`, skip `"MQTT"`). -/
def connectLevel (buf : List Nat) : Except MStatus Nat :=
  match findMQTT buf with
  | .error s => .error s
  | .ok m => rb buf (m + 4)

/-- Observer: the connect-flags byte, one past the protocol level. -/
def connectFlags (buf : List Nat) : Except MStatus Nat :=
  match findMQTT buf with
  | .error s => .error s
  | .ok m => rb buf (m + 5)

/-- Observer: the two-byte client identifier length at offset `m + 8`. -/
def connectClientIdLength (buf : List Nat) : Except MStatus Nat :=
  match findMQTT buf with
  | .error s => .error s
  | .ok m => getIntFromTwoBytes buf (m + 8)

/-- 2^64, the modulus of `size_t` arithmetic. -/
def SIZE_T_MOD : Nat := 18446744073709551616

/-- `size_t` subtraction `a - b` with wrap-around, as in the payload-length
computation `remainingLength + 1U + encodedLength - index`. -/
def wsub (a b : Nat) : Nat :=
  (a % SIZE_T_MOD + (SIZE_T_MOD - b % SIZE_T_MOD)) % SIZE_T_MOD

theorem wsub_eq_sub (a b : Nat) (hba : b ≤ a) (ha : a < SIZE_T_MOD) :
    wsub a b = a - b := by
  unfold wsub SIZE_T_MOD at *
  omega

/-- `MQTTBLEPublishInfo_t`: the per-connection publish reassembly slot
(`pending` flag plus the embedded `MQTTPublishInfo_t` and packet id).  The
heap-copied topic is the byte list itself; `pPayload` is `none` while the
payload pointer is unset (NULL), otherwise the `payloadLength`-byte slice the
serializer will consume. -/
structure MQTTBLEPublishInfo where
  pending : Bool := false
  dup : Bool := false
  retain : Bool := false
  qos : MQTTQoS := .MQTTQoS0
  topicNameLength : Nat := 0
  pTopicName : List Nat := []
  packetIdentifier : Nat := 0
  payloadLength : Nat := 0
  pPayload : Option (List Nat) := none
  deriving DecidableEq, Repr

/-- The all-zero reassembly slot (`memset( pPublishInfo, 0x00, ... )`). -/
def initialPublishInfo : MQTTBLEPublishInfo := {}

/-- Intermediate result of the header part of `parsePublish` (everything
before the `index < length` payload test, which is the only step that
consults the declared buffer length). -/
structure PubHeader where
  dup : Bool
  retain : Bool
  qos : MQTTQoS
  topicNameLength : Nat
  topic : List Nat
  packetIdentifier : Nat
  index : Nat
  payloadLength : Nat
  deriving DecidableEq, Repr

/-- Header phase of `parsePublish`: flags from the low nibble of `buf[0]`
(dup = bit 2 as the source's `PUBLISH_FLAG_DUP_MASK` is `BIT_MASK(2)`,
retain = bit 0, QoS = bits 1-2), remaining length via the varint decoder
(`configASSERT` on the sentinel), two-byte topic length, heap copy of the
topic bytes (allocation assumed to succeed), then the packet identifier when
QoS > 0.  `payloadLength = remainingLength + 1 + encodedLength - index` in
`size_t` arithmetic. -/
def parsePublishHeader (buf : List Nat) : Except MStatus PubHeader :=
  match rb buf 0 with
  | .error s => .error s
  | .ok b0 =>
    if b0 / 16 ≠ 3 then .error .MQTTAssertFailed
    else
      let flags := b0 % 16
      match getRemainingLength buf 1 with
      | .error s => .error s
      | .ok (remainingLength, encodedLength) =>
        if remainingLength = REMAINING_LENGTH_INVALID then .error .MQTTAssertFailed
        else
          match getIntFromTwoBytes buf (1 + encodedLength) with
          | .error s => .error s
          | .ok topicLen =>
            match readSlice buf (1 + encodedLength + 2) topicLen with
            | .error s => .error s
            | .ok topic =>
              if convertIntToQos (flags / 2 % 4) ≠ .MQTTQoS0 then
                match getIntFromTwoBytes buf (1 + encodedLength + 2 + topicLen) with
                | .error s => .error s
                | .ok pid =>
                  .ok { dup := flags / 4 % 2 = 1
                        retain := flags % 2 = 1
                        qos := convertIntToQos (flags / 2 % 4)
                        topicNameLength := topicLen
                        topic := topic
                        packetIdentifier := pid
                        index := 1 + encodedLength + 2 + topicLen + 2
                        payloadLength := wsub (remainingLength + 1 + encodedLength)
                          (1 + encodedLength + 2 + topicLen + 2) }
              else
                .ok { dup := flags / 4 % 2 = 1
                      retain := flags % 2 = 1
                      qos := convertIntToQos (flags / 2 % 4)
                      topicNameLength := topicLen
                      topic := topic
                      packetIdentifier := 0
                      index := 1 + encodedLength + 2 + topicLen
                      payloadLength := wsub (remainingLength + 1 + encodedLength)
                        (1 + encodedLength + 2 + topicLen) }

/-- `parsePublish( buf, length, pPublishInfo )`.  The returned record's
`pending` field is the C return value: `false` when the payload is co-located
in the buffer (`index < length`, payload = the `payloadLength`-byte slice at
`index`), `true` when the buffer ends at the payload and `payloadLength > 0`
(reassembly required, payload pointer left NULL). -/
def parsePublish (buf : List Nat) (length : Nat) : Except MStatus MQTTBLEPublishInfo :=
  match parsePublishHeader buf with
  | .error s => .error s
  | .ok h =>
    if h.index < length then
      .ok { pending := false
            dup := h.dup
            retain := h.retain
            qos := h.qos
            topicNameLength := h.topicNameLength
            pTopicName := h.topic
            packetIdentifier := h.packetIdentifier
            payloadLength := h.payloadLength
            pPayload := some ((buf.drop h.index).take h.payloadLength) }
    else
      .ok { pending := decide (0 < h.payloadLength)
            dup := h.dup
            retain := h.retain
            qos := h.qos
            topicNameLength := h.topicNameLength
            pTopicName := h.topic
            packetIdentifier := h.packetIdentifier
            payloadLength := h.payloadLength
            pPayload := none }

/-- One `MQTTSubscribeInfo_t` entry of the `_subscriptions` scratch list: the
topic filter is a borrowed slice (start offset + length) of the input. -/
structure MQTTSubscribeInfo where
  topicFilterLength : Nat := 0
  topicFilterStart : Nat := 0
  qos : MQTTQoS := .MQTTQoS0
  deriving DecidableEq, Repr

/-- The `while( ( remainingLength - totalSize ) > 0 )` loop of
`calculateNumSubs` operating on `&buf[base]`.  `remainingLength` (`uint8_t`)
and `totalSize`/`numSubs` (`uint16_t`) promote to `int`, so the condition is
`totalSize < remainingLength`; the updates truncate mod 65536.  Because the
increment itself can be ≡ 0 (mod 65536), the C loop can diverge; the model
bounds it with fuel, whose exhaustion is reported as the (artificial)
`MQTTAssertFailed`. -/
def calculateNumSubsLoop (buf : List Nat) (base remainingLength : Nat)
    (subscribe : Bool) : Nat → Nat → Nat → Except MStatus (Nat × Nat)
  | 0, _, _ => .error .MQTTAssertFailed
  | fuel + 1, totalSize, numSubs =>
    if totalSize < remainingLength then
      match getIntFromTwoBytes buf (base + totalSize) with
      | .error s => .error s
      | .ok len =>
        calculateNumSubsLoop buf base remainingLength subscribe fuel
          ((totalSize + len + 2 + (if subscribe then 1 else 0)) % 65536)
          ((numSubs + 1) % 65536)
    else .ok (numSubs, totalSize)

/-- `calculateNumSubs`: returns `(numSubs, final totalSize)`. -/
def calculateNumSubs (buf : List Nat) (base remainingLength : Nat)
    (subscribe : Bool) : Except MStatus (Nat × Nat) :=
  calculateNumSubsLoop buf base remainingLength subscribe 131072 0 0

/-- The population loop of `parseSubscribe`: for each of the `count` entries,
a two-byte filter length, the borrowed filter slice, and (for SUBSCRIBE only)
the QoS byte `buf[bufferIndex] & 0x03`.  `bufferIndex` is `uint16_t`.  For
UNSUBSCRIBE the QoS field of the scratch entry is left untouched (the static
array zero-initialises, modelled as QoS0). -/
def populateSubs (buf : List Nat) (subscribe : Bool) :
    Nat → Nat → Except MStatus (List MQTTSubscribeInfo)
  | _, 0 => .ok []
  | idx, k + 1 =>
    match getIntFromTwoBytes buf idx with
    | .error s => .error s
    | .ok len =>
      let start := idx + 2
      let idx := (idx + len + 2) % 65536
      if subscribe then
        match rb buf idx with
        | .error s => .error s
        | .ok q =>
          match populateSubs buf subscribe ((idx + 1) % 65536) k with
          | .error s => .error s
          | .ok rest =>
            .ok ({ topicFilterLength := len, topicFilterStart := start,
                   qos := convertIntToQos (q % 4) } :: rest)
      else
        match populateSubs buf subscribe idx k with
        | .error s => .error s
        | .ok rest =>
          .ok ({ topicFilterLength := len, topicFilterStart := start,
                 qos := .MQTTQoS0 } :: rest)

/-- Result of `parseSubscribe`: packet identifier, subscription count, the
final `totalSize` reached by `calculateNumSubs` (model instrumentation used
to state the exhaustion property), and the populated scratch list. -/
structure SubParseResult where
  packetIdentifier : Nat
  subscriptionCount : Nat
  totalConsumed : Nat
  subscriptions : List MQTTSubscribeInfo
  deriving DecidableEq, Repr

/-- `parseSubscribe`: identifier from `buf[2..3]`, remaining length
`buf[1] - 2U` in `uint8_t` arithmetic (hence `(buf[1] + 254) % 256`), filter
count from `calculateNumSubs` over `&buf[4]`, `MQTTBadParameter` iff that
count is 0, then the population loop from offset 4. -/
def parseSubscribe (buf : List Nat) (subscribe : Bool) :
    Except MStatus SubParseResult :=
  match getIntFromTwoBytes buf 2 with
  | .error s => .error s
  | .ok pid =>
    match rb buf 1 with
    | .error s => .error s
    | .ok b1 =>
      match calculateNumSubs buf 4 ((b1 + 254) % 256) subscribe with
      | .error s => .error s
      | .ok (count, total) =>
        if count = 0 then .error .MQTTBadParameter
        else
          match populateSubs buf subscribe 4 count with
          | .error s => .error s
          | .ok subs =>
            .ok { packetIdentifier := pid, subscriptionCount := count,
                  totalConsumed := total, subscriptions := subs }

/-- Packet type bytes from `core_mqtt_serializer.h` / the source's
`CLIENT_PACKET_TYPE_*` defines. -/
def MQTT_PACKET_TYPE_CONNECT : Nat := 16
def MQTT_PACKET_TYPE_CONNACK : Nat := 32
def MQTT_PACKET_TYPE_PUBLISH : Nat := 48
def MQTT_PACKET_TYPE_PUBACK : Nat := 64
def MQTT_PACKET_TYPE_PUBREC : Nat := 80
def MQTT_PACKET_TYPE_PUBREL : Nat := 98
def MQTT_PACKET_TYPE_PUBCOMP : Nat := 112
def MQTT_PACKET_TYPE_SUBACK : Nat := 144
def MQTT_PACKET_TYPE_UNSUBACK : Nat := 176
def MQTT_PACKET_TYPE_PINGRESP : Nat := 208

/-- `transportSerializeAck` (CONNACK/PUBACK/UNSUBACK): 4 fixed bytes
`[type, 2, id_hi, id_lo]`; packet id 0 is rejected for PUBACK only.  The
buffer-capacity `configASSERT` always holds for the 5-byte shared buffer of
the inbound dispatcher and is not modelled. -/
def transportSerializeAck (packetType packetId : Nat) : Except MStatus (List Nat) :=
  if packetId = 0 ∧ packetType = MQTT_PACKET_TYPE_PUBACK then .error .MQTTBadParameter
  else .ok [packetType % 256, 2, packetId / 256 % 256, packetId % 256]

/-- `transportSerializeSuback`: 5 fixed bytes `[type, 3, id_hi, id_lo, 1]`
(granted QoS unconditionally 1); packet id 0 is rejected for every type. -/
def transportSerializeSuback (packetType packetId : Nat) : Except MStatus (List Nat) :=
  if packetId = 0 then .error .MQTTBadParameter
  else .ok [packetType % 256, 3, packetId / 256 % 256, packetId % 256, 1]

/-- `transportSerializePingresp`: `[PINGRESP, 0]`, always succeeds. -/
def transportSerializePingresp : List Nat := [MQTT_PACKET_TYPE_PINGRESP, 0]

/-- The decoded publish record an incoming BLE publish is re-serialized from
(`MQTTPublishInfo_t`): lengths are the list lengths. -/
structure MQTTPublishInfo where
  dup : Bool := false
  retain : Bool := false
  qos : MQTTQoS := .MQTTQoS0
  topicName : List Nat := []
  payload : List Nat := []
  deriving DecidableEq, Repr

/-- `transportSerializePublish`: rejects QoS2 and QoS1-with-id-0 before any
byte is pushed; otherwise pushes the standard MQTT PUBLISH frame (flags byte,
varint remaining length, topic length, topic, packet id when QoS ≥ 1,
payload) into the byte queue.  Returns the pushed bytes. -/
def transportSerializePublish (p : MQTTPublishInfo) (packetId : Nat) :
    Except MStatus (List Nat) :=
  if p.qos = .MQTTQoS2 then .error .MQTTBadParameter
  else if p.qos = .MQTTQoS1 ∧ packetId = 0 then .error .MQTTBadParameter
  else
    let flags := MQTT_PACKET_TYPE_PUBLISH + (if p.dup then 4 else 0) +
      (if p.retain then 1 else 0) + (if p.qos = .MQTTQoS1 then 2 else 0)
    let remaining := 2 + p.topicName.length + p.payload.length +
      (if p.qos ≠ .MQTTQoS0 then 2 else 0)
    .ok ((flags :: encodeRemainingLength remaining) ++
      [p.topicName.length / 256 % 256, p.topicName.length % 256] ++
      p.topicName ++
      (if p.qos ≠ .MQTTQoS0 then [packetId / 256 % 256, packetId % 256] else []) ++
      p.payload)

/-- The decoded publish handed to the external BLE serializer
(`IotBleMqtt_SerializePublish( &info, ..., packetIdentifier )`): the
`MQTTPublishInfo_t` fields plus the packet id.  `payload` is the
`payloadLength`-byte slice the serializer reads from `pPayload`. -/
structure PubRec where
  dup : Bool
  retain : Bool
  qos : MQTTQoS
  topicNameLength : Nat
  topic : List Nat
  payloadLength : Nat
  payload : List Nat
  packetIdentifier : Nat
  deriving DecidableEq, Repr

/-- Build the record handed to `IotBleMqtt_SerializePublish` from a completed
reassembly slot. -/
def mkPubRec (st : MQTTBLEPublishInfo) : PubRec :=
  { dup := st.dup
    retain := st.retain
    qos := st.qos
    topicNameLength := st.topicNameLength
    topic := st.pTopicName
    payloadLength := st.payloadLength
    payload := st.pPayload.getD []
    packetIdentifier := st.packetIdentifier }

/-- The external collaborators of the outbound path, at their interface
boundary (§6 of the design): each `IotBleMqtt_Serialize*` returns a status
and an owned frame (its reported size = the frame length), coreMQTT's
`MQTT_DeserializeAck` returns a status and the packet id, and the channel's
`IotBleDataTransfer_Send` returns the byte count it accepted. -/
structure Env where
  serializeConnect : MQTTConnectInfo → MStatus × List Nat
  serializePublish : PubRec → MStatus × List Nat
  serializePuback : Nat → MStatus × List Nat
  serializeSubscribe : List MQTTSubscribeInfo → Nat → MStatus × List Nat
  serializeUnsubscribe : List MQTTSubscribeInfo → Nat → MStatus × List Nat
  serializePingreq : MStatus × List Nat
  serializeDisconnect : MStatus × List Nat
  deserializeAck : List Nat → MStatus × Nat
  chanSend : List Nat → Nat

/-- Result of one outbound handler: the status, the reassembly slot after the
call, the record handed to the BLE publish serializer (if any), the produced
frame and its reported size. -/
structure HOPResult where
  status : MStatus
  newState : MQTTBLEPublishInfo
  emitted : Option PubRec
  frame : List Nat
  size : Nat
  deriving Repr

/-- `handleOutgoingPublish`.  A pending slot interprets the whole buffer as
the missing payload after the `configASSERT( payloadLength == bytesToSend )`
(fatal on mismatch); otherwise the buffer is parsed as a fresh PUBLISH.  When
nothing is left pending the completed record is handed to
`IotBleMqtt_SerializePublish` and the slot is zeroed (`memset`); when the
payload is still missing the frame is NULL with size 0. -/
def handleOutgoingPublish (e : Env) (st : MQTTBLEPublishInfo)
    (buf : List Nat) (bytesToSend : Nat) : HOPResult :=
  let parsed : Except MStatus MQTTBLEPublishInfo :=
    if st.pending then
      if st.payloadLength = bytesToSend then
        .ok { st with pending := false, pPayload := some (buf.take st.payloadLength) }
      else .error .MQTTAssertFailed
    else parsePublish buf bytesToSend
  match parsed with
  | .error s => { status := s, newState := st, emitted := none, frame := [], size := 0 }
  | .ok p =>
    if p.pending then
      { status := .MQTTSuccess, newState := p, emitted := none, frame := [], size := 0 }
    else
      let r := mkPubRec p
      let sf := e.serializePublish r
      { status := sf.1, newState := initialPublishInfo, emitted := some r,
        frame := sf.2, size := sf.2.length }

/-- `handleOutgoingConnect`: parse then BLE-serialize. -/
def handleOutgoingConnect (e : Env) (buf : List Nat) : MStatus × List Nat :=
  match parseConnect buf with
  | .error s => (s, [])
  | .ok cfg => e.serializeConnect cfg

/-- `handleOutgoingPuback`: recover the packet id via `MQTT_DeserializeAck`,
then BLE-serialize the puback. -/
def handleOutgoingPuback (e : Env) (buf : List Nat) : MStatus × List Nat :=
  let d := e.deserializeAck buf
  if d.1 = .MQTTSuccess then e.serializePuback d.2 else (d.1, [])

/-- `handleOutgoingSubscribe`. -/
def handleOutgoingSubscribe (e : Env) (buf : List Nat) : MStatus × List Nat :=
  match parseSubscribe buf true with
  | .error s => (s, [])
  | .ok r => e.serializeSubscribe r.subscriptions r.packetIdentifier

/-- `handleOutgoingUnsubscribe`. -/
def handleOutgoingUnsubscribe (e : Env) (buf : List Nat) : MStatus × List Nat :=
  match parseSubscribe buf false with
  | .error s => (s, [])
  | .ok r => e.serializeUnsubscribe r.subscriptions r.packetIdentifier

/-- Outcome of the `switch( packetType )` dispatch of
`IotBleMqttTransportSend`, before the common channel-send tail. -/
structure SendDispatch where
  status : MStatus
  frame : List Nat
  size : Nat
  newState : MQTTBLEPublishInfo
  emitted : Option PubRec
  deriving Repr

/-- The dispatch phase of `IotBleMqttTransportSend`: a pending reassembly
routes to the publish handler unconditionally; otherwise the top nibble of
`buf[0]` selects the handler.  PUBREC/PUBREL/PUBCOMP (nibbles 5, 6, 7) fail
with `MQTTSendFailed`; any other server-to-client type is
`MQTTBadParameter`. -/
def dispatchSend (e : Env) (st : MQTTBLEPublishInfo) (buf : List Nat)
    (bytesToWrite : Nat) : SendDispatch :=
  if st.pending then
    let h := handleOutgoingPublish e st buf bytesToWrite
    { status := h.status, frame := h.frame, size := h.size,
      newState := h.newState, emitted := h.emitted }
  else
    let t := buf.headD 0 % 256 / 16
    if t = 1 then
      let sf := handleOutgoingConnect e buf
      { status := sf.1, frame := sf.2, size := sf.2.length, newState := st, emitted := none }
    else if t = 3 then
      let h := handleOutgoingPublish e st buf bytesToWrite
      { status := h.status, frame := h.frame, size := h.size,
        newState := h.newState, emitted := h.emitted }
    else if t = 4 then
      let sf := handleOutgoingPuback e buf
      { status := sf.1, frame := sf.2, size := sf.2.length, newState := st, emitted := none }
    else if t = 8 then
      let sf := handleOutgoingSubscribe e buf
      { status := sf.1, frame := sf.2, size := sf.2.length, newState := st, emitted := none }
    else if t = 10 then
      let sf := handleOutgoingUnsubscribe e buf
      { status := sf.1, frame := sf.2, size := sf.2.length, newState := st, emitted := none }
    else if t = 12 then
      let sf := e.serializePingreq
      { status := sf.1, frame := sf.2, size := sf.2.length, newState := st, emitted := none }
    else if t = 14 then
      let sf := e.serializeDisconnect
      { status := sf.1, frame := sf.2, size := sf.2.length, newState := st, emitted := none }
    else if t = 5 ∨ t = 6 ∨ t = 7 then
      { status := .MQTTSendFailed, frame := [], size := 0, newState := st, emitted := none }
    else
      { status := .MQTTBadParameter, frame := [], size := 0, newState := st, emitted := none }

/-- Observable result of `IotBleMqttTransportSend`: the returned byte count,
the frames handed to `IotBleDataTransfer_Send` (in order), and the
reassembly slot afterwards. -/
structure SendResult where
  ret : Nat
  sent : List (List Nat)
  newState : MQTTBLEPublishInfo
  deriving Repr

/-- `IotBleMqttTransportSend`: `MQTTBytesWritten` starts as `bytesToWrite`;
on a handler error it becomes 0; on success with a positive frame size the
frame goes to the channel and a short channel send also zeroes the count; on
success with size 0 (payload still pending) nothing is sent and the count
stays `bytesToWrite`. -/
def IotBleMqttTransportSend (e : Env) (st : MQTTBLEPublishInfo)
    (buf : List Nat) (bytesToWrite : Nat) : SendResult :=
  let o := dispatchSend e st buf bytesToWrite
  if o.status = .MQTTSuccess then
    if 0 < o.size then
      let k := e.chanSend o.frame
      { ret := if k ≠ o.size then 0 else bytesToWrite, sent := [o.frame],
        newState := o.newState }
    else
      { ret := bytesToWrite, sent := [], newState := o.newState }
  else
    { ret := 0, sent := [], newState := o.newState }

/-- `MQTTPacketInfo_t` as filled by the inbound dispatcher: the peeked type
byte and the borrowed view of the channel's receive buffer. -/
structure MQTTPacketInfo where
  type : Nat
  remainingData : List Nat
  deriving Repr

/-- The external collaborators of the inbound path: the channel peek
(`IotBleMqtt_GetPacketType` + `IotBleDataTransfer_PeekReceiveBuffer`, whose
reported length is the length of the peeked view) and the
`IotBleMqtt_Deserialize*` decoders. -/
structure InEnv where
  peekType : Nat
  peekData : List Nat
  deserializeConnack : MQTTPacketInfo → MStatus
  deserializePuback : MQTTPacketInfo → MStatus × Nat
  deserializePublish : MQTTPacketInfo → MStatus × MQTTPublishInfo × Nat
  deserializeSuback : MQTTPacketInfo → MStatus × Nat
  deserializeUnsuback : MQTTPacketInfo → MStatus × Nat
  deserializePingresp : MQTTPacketInfo → MStatus

/-- The `switch( packet.type )` of `IotBleMqttTransportAcceptData`: returns
the handler status and the bytes pushed into the byte queue.  Every push in
the source is guarded by a successful deserialize and serialize, so an
erroring handler pushes nothing. -/
def acceptHandle (e : InEnv) (pkt : MQTTPacketInfo) : MStatus × List Nat :=
  if pkt.type = MQTT_PACKET_TYPE_CONNACK then
    let s := e.deserializeConnack pkt
    if s = .MQTTSuccess then
      match transportSerializeAck pkt.type 0 with
      | .ok bytes => (.MQTTSuccess, bytes)
      | .error s' => (s', [])
    else (s, [])
  else if pkt.type = MQTT_PACKET_TYPE_PUBLISH then
    let d := e.deserializePublish pkt
    if d.1 = .MQTTSuccess then
      match transportSerializePublish d.2.1 d.2.2 with
      | .ok bytes => (.MQTTSuccess, bytes)
      | .error s' => (s', [])
    else (d.1, [])
  else if pkt.type = MQTT_PACKET_TYPE_PUBACK then
    let d := e.deserializePuback pkt
    if d.1 = .MQTTSuccess then
      match transportSerializeAck pkt.type d.2 with
      | .ok bytes => (.MQTTSuccess, bytes)
      | .error s' => (s', [])
    else (d.1, [])
  else if pkt.type = MQTT_PACKET_TYPE_SUBACK then
    let d := e.deserializeSuback pkt
    if d.1 = .MQTTSuccess then
      match transportSerializeSuback pkt.type d.2 with
      | .ok bytes => (.MQTTSuccess, bytes)
      | .error s' => (s', [])
    else (d.1, [])
  else if pkt.type = MQTT_PACKET_TYPE_UNSUBACK then
    let d := e.deserializeUnsuback pkt
    if d.1 = .MQTTSuccess then
      match transportSerializeAck pkt.type d.2 with
      | .ok bytes => (.MQTTSuccess, bytes)
      | .error s' => (s', [])
    else (d.1, [])
  else if pkt.type = MQTT_PACKET_TYPE_PINGRESP then
    let s := e.deserializePingresp pkt
    if s = .MQTTSuccess then (.MQTTSuccess, transportSerializePingresp)
    else (s, [])
  else if pkt.type = MQTT_PACKET_TYPE_PUBREC ∨ pkt.type = MQTT_PACKET_TYPE_PUBREL ∨
      pkt.type = MQTT_PACKET_TYPE_PUBCOMP then
    (.MQTTRecvFailed, [])
  else
    (.MQTTBadParameter, [])

/-- Observable result of `IotBleMqttTransportAcceptData`: the status, the
bytes pushed into the byte queue, and the number of bytes explicitly drained
from the channel (`IotBleDataTransfer_Receive( pChannel, NULL,
packet.remainingLength )`). -/
structure AcceptResult where
  status : MStatus
  queued : List Nat
  flushed : Nat
  deriving Repr

/-- `IotBleMqttTransportAcceptData`: dispatch on the peeked packet, then
flush exactly the peeked byte count from the channel iff the handler
succeeded. -/
def IotBleMqttTransportAcceptData (e : InEnv) : AcceptResult :=
  let pkt : MQTTPacketInfo := { type := e.peekType, remainingData := e.peekData }
  let r := acceptHandle e pkt
  { status := r.1, queued := r.2,
    flushed := if r.1 = .MQTTSuccess then e.peekData.length else 0 }

/-- An `rb` failure is always the out-of-range artifact. -/
theorem rb_error_eq (buf : List Nat) (i : Nat) (s : MStatus)
    (h : rb buf i = .error s) : s = .MQTTOutOfRange := by
  unfold rb at h
  cases hb : buf[i]? <;> rw [hb] at h <;> simp_all

/-- A `getIntFromTwoBytes` failure is always the out-of-range artifact. -/
theorem getIntFromTwoBytes_error_eq (buf : List Nat) (i : Nat) (s : MStatus)
    (h : getIntFromTwoBytes buf i = .error s) : s = .MQTTOutOfRange := by
  unfold getIntFromTwoBytes at h
  cases h1 : rb buf i with
  | error s1 =>
    rw [h1] at h
    simp only [Except.error.injEq] at h
    exact h ▸ rb_error_eq buf i s1 h1
  | ok hi =>
    rw [h1] at h
    cases h2 : rb buf (i + 1) with
    | error s2 =>
      rw [h2] at h
      simp only [Except.error.injEq] at h
      exact h ▸ rb_error_eq buf (i + 1) s2 h2
    | ok lo =>
      rw [h2] at h
      simp at h

/-- A successful `rb` read is in bounds. -/
theorem rb_ok_lt (buf : List Nat) (i v : Nat) (h : rb buf i = .ok v) :
    i < buf.length := by
  by_contra hge
  push_neg at hge
  unfold rb at h
  rw [List.getElem?_eq_none hge] at h
  simp at h

/-- Reads in bounds of a list stay unchanged when the list is extended. -/
theorem rb_mono (buf l2 : List Nat) (i v : Nat) (h : rb buf i = .ok v) :
    rb (buf ++ l2) i = .ok v := by
  have hlt := rb_ok_lt buf i v h
  unfold rb at *
  rw [List.getElem?_append_left hlt]
  exact h

theorem getIntFromTwoBytes_ok_lt (buf : List Nat) (i v : Nat)
    (h : getIntFromTwoBytes buf i = .ok v) : i + 1 < buf.length := by
  unfold getIntFromTwoBytes at h
  cases h1 : rb buf i with
  | error s1 => rw [h1] at h; simp at h
  | ok hi =>
    rw [h1] at h
    cases h2 : rb buf (i + 1) with
    | error s2 => rw [h2] at h; simp at h
    | ok lo => exact rb_ok_lt buf (i + 1) lo h2

theorem getIntFromTwoBytes_mono (buf l2 : List Nat) (i v : Nat)
    (h : getIntFromTwoBytes buf i = .ok v) :
    getIntFromTwoBytes (buf ++ l2) i = .ok v := by
  unfold getIntFromTwoBytes at *
  cases h1 : rb buf i with
  | error s1 => rw [h1] at h; simp at h
  | ok hi =>
    rw [h1] at h
    cases h2 : rb buf (i + 1) with
    | error s2 => rw [h2] at h; simp at h
    | ok lo =>
      rw [h2] at h
      rw [rb_mono buf l2 i hi h1, rb_mono buf l2 (i + 1) lo h2]
      exact h

theorem readSlice_mono (buf l2 : List Nat) :
    ∀ (n i : Nat) (s : List Nat), readSlice buf i n = .ok s →
      readSlice (buf ++ l2) i n = .ok s := by
  intro n
  induction n with
  | zero => intro i s h; simpa [readSlice] using h
  | succ n ih =>
    intro i s h
    unfold readSlice at h ⊢
    cases h1 : rb buf i with
    | error s1 => rw [h1] at h; simp at h
    | ok b =>
      rw [h1] at h
      cases h2 : readSlice buf (i + 1) n with
      | error s2 => rw [h2] at h; simp at h
      | ok rest =>
        rw [h2] at h
        rw [rb_mono buf l2 i b h1, ih (i + 1) rest h2]
        exact h

theorem readSlice_ok_le (buf : List Nat) :
    ∀ (n i : Nat) (s : List Nat), readSlice buf i n = .ok s →
      n = 0 ∨ i + n ≤ buf.length := by
  intro n
  induction n with
  | zero => intro i s _; exact Or.inl rfl
  | succ n ih =>
    intro i s h
    unfold readSlice at h
    cases h1 : rb buf i with
    | error s1 => rw [h1] at h; simp at h
    | ok b =>
      rw [h1] at h
      cases h2 : readSlice buf (i + 1) n with
      | error s2 => rw [h2] at h; simp at h
      | ok rest =>
        have hb := rb_ok_lt buf i b h1
        rcases ih (i + 1) rest h2 with hz | hle
        · right; omega
        · right; omega

theorem getRemainingLengthLoop_nil (m a c : Nat) :
    getRemainingLengthLoop [] m a c =
      if 2097152 < m then .ok (REMAINING_LENGTH_INVALID, c)
      else .error .MQTTOutOfRange := by
  rw [getRemainingLengthLoop]

theorem getRemainingLengthLoop_cons (b : Nat) (rest : List Nat) (m a c : Nat) :
    getRemainingLengthLoop (b :: rest) m a c =
      if 2097152 < m then .ok (REMAINING_LENGTH_INVALID, c)
      else if 128 ≤ b % 256 then
        getRemainingLengthLoop rest (m * 128) (a + b % 256 % 128 * m) (c + 1)
      else .ok (a + b % 256 % 128 * m, c + 1) := by
  rw [getRemainingLengthLoop]

theorem getRemainingLengthLoop_mono (l2 : List Nat) :
    ∀ (l1 : List Nat) (m a c : Nat) (r : Nat × Nat),
      getRemainingLengthLoop l1 m a c = .ok r →
      getRemainingLengthLoop (l1 ++ l2) m a c = .ok r := by
  intro l1
  induction l1 with
  | nil =>
    intro m a c r h
    rw [getRemainingLengthLoop_nil] at h
    by_cases hm : 2097152 < m
    · rw [if_pos hm] at h
      rw [List.nil_append]
      cases l2 with
      | nil => rw [getRemainingLengthLoop_nil, if_pos hm]; exact h
      | cons b t => rw [getRemainingLengthLoop_cons, if_pos hm]; exact h
    · rw [if_neg hm] at h; simp at h
  | cons b rest ih =>
    intro m a c r h
    rw [getRemainingLengthLoop_cons] at h
    rw [List.cons_append, getRemainingLengthLoop_cons]
    by_cases hm : 2097152 < m
    · rw [if_pos hm] at h ⊢; exact h
    · rw [if_neg hm] at h ⊢
      by_cases hc : 128 ≤ b % 256
      · rw [if_pos hc] at h ⊢
        exact ih _ _ _ _ h
      · rw [if_neg hc] at h ⊢
        exact h

theorem getRemainingLength_mono (buf l2 : List Nat) (i : Nat) (r : Nat × Nat)
    (hi : i ≤ buf.length) (h : getRemainingLength buf i = .ok r) :
    getRemainingLength (buf ++ l2) i = .ok r := by
  unfold getRemainingLength at h ⊢
  rw [List.drop_append_of_le_length hi]
  exact getRemainingLengthLoop_mono l2 (buf.drop i) 1 0 0 r h

/-- A successful header parse reads only bytes below its final cursor, so the
cursor is within the buffer, and the parse is unchanged by appending bytes. -/
theorem parsePublishHeader_props (buf : List Nat) (hd : PubHeader)
    (h : parsePublishHeader buf = .ok hd) :
    hd.index ≤ buf.length ∧
    ∀ l2, parsePublishHeader (buf ++ l2) = .ok hd := by
  unfold parsePublishHeader at h
  cases h0 : rb buf 0 with
  | error s => rw [h0] at h; simp at h
  | ok b0 =>
    rw [h0] at h
    simp only [] at h
    by_cases hnib : b0 / 16 ≠ 3
    · rw [if_pos hnib] at h; simp at h
    · rw [if_neg hnib] at h
      cases hrl : getRemainingLength buf 1 with
      | error s => rw [hrl] at h; simp at h
      | ok rl =>
        obtain ⟨rlv, el⟩ := rl
        rw [hrl] at h
        simp only [] at h
        by_cases hinv : rlv = REMAINING_LENGTH_INVALID
        · rw [if_pos hinv] at h; simp at h
        · rw [if_neg hinv] at h
          cases htl : getIntFromTwoBytes buf (1 + el) with
          | error s => rw [htl] at h; simp at h
          | ok tl =>
            rw [htl] at h
            simp only [] at h
            cases hts : readSlice buf (1 + el + 2) tl with
            | error s => rw [hts] at h; simp at h
            | ok topic =>
              rw [hts] at h
              simp only [] at h
              have h1len : 1 ≤ buf.length := by
                have := rb_ok_lt buf 0 b0 h0
                omega
              have htlb : 1 + el + 1 < buf.length :=
                getIntFromTwoBytes_ok_lt buf (1 + el) tl htl
              by_cases hq : convertIntToQos (b0 % 16 / 2 % 4) ≠ .MQTTQoS0
              · rw [if_pos hq] at h
                cases hpid : getIntFromTwoBytes buf (1 + el + 2 + tl) with
                | error s => rw [hpid] at h; simp at h
                | ok pid =>
                  rw [hpid] at h
                  simp only [Except.ok.injEq] at h
                  subst h
                  have hpb : 1 + el + 2 + tl + 1 < buf.length :=
                    getIntFromTwoBytes_ok_lt buf (1 + el + 2 + tl) pid hpid
                  refine ⟨by simp; omega, ?_⟩
                  intro l2
                  unfold parsePublishHeader
                  rw [rb_mono buf l2 0 b0 h0]
                  simp only []
                  rw [if_neg hnib, getRemainingLength_mono buf l2 1 (rlv, el) h1len hrl]
                  simp only []
                  rw [if_neg hinv, getIntFromTwoBytes_mono buf l2 (1 + el) tl htl]
                  simp only []
                  rw [readSlice_mono buf l2 tl (1 + el + 2) topic hts]
                  simp only []
                  rw [if_pos hq, getIntFromTwoBytes_mono buf l2 (1 + el + 2 + tl) pid hpid]
              · rw [if_neg hq] at h
                simp only [Except.ok.injEq] at h
                subst h
                have hidx : 1 + el + 2 + tl ≤ buf.length := by
                  rcases readSlice_ok_le buf tl (1 + el + 2) topic hts with hz | hle
                  · omega
                  · omega
                refine ⟨by simpa using hidx, ?_⟩
                intro l2
                unfold parsePublishHeader
                rw [rb_mono buf l2 0 b0 h0]
                simp only []
                rw [if_neg hnib, getRemainingLength_mono buf l2 1 (rlv, el) h1len hrl]
                simp only []
                rw [if_neg hinv, getIntFromTwoBytes_mono buf l2 (1 + el) tl htl]
                simp only []
                rw [readSlice_mono buf l2 tl (1 + el + 2) topic hts]
                simp only []
                rw [if_neg hq]

/-- Unfolding `handleOutgoingPublish` when no reassembly is pending. -/
theorem handleOutgoingPublish_not_pending (e : Env) (st : MQTTBLEPublishInfo)
    (buf : List Nat) (L : Nat) (h : st.pending = false) :
    handleOutgoingPublish e st buf L =
      match parsePublish buf L with
      | .error s => { status := s, newState := st, emitted := none, frame := [], size := 0 }
      | .ok p =>
        if p.pending then
          { status := .MQTTSuccess, newState := p, emitted := none, frame := [], size := 0 }
        else
          { status := (e.serializePublish (mkPubRec p)).1
            newState := initialPublishInfo
            emitted := some (mkPubRec p)
            frame := (e.serializePublish (mkPubRec p)).2
            size := (e.serializePublish (mkPubRec p)).2.length } := by
  unfold handleOutgoingPublish
  simp only [h, Bool.false_eq_true, if_false]

/-- Unfolding `handleOutgoingPublish` on a pending slot whose stored payload
length matches the call's byte count. -/
theorem handleOutgoingPublish_pending_ok (e : Env) (st : MQTTBLEPublishInfo)
    (buf : List Nat) (L : Nat) (h : st.pending = true) (hl : st.payloadLength = L) :
    handleOutgoingPublish e st buf L =
      { status := (e.serializePublish (mkPubRec ({ st with pending := false, pPayload := some (buf.take st.payloadLength) }))).1,
        newState := initialPublishInfo,
        emitted := some (mkPubRec ({ st with pending := false, pPayload := some (buf.take st.payloadLength) })),
        frame := (e.serializePublish (mkPubRec ({ st with pending := false, pPayload := some (buf.take st.payloadLength) }))).2,
        size := (e.serializePublish (mkPubRec ({ st with pending := false, pPayload := some (buf.take st.payloadLength) }))).2.length } := by
  unfold handleOutgoingPublish
  simp [h, hl]

/-- C2: for a well-formed PUBLISH split at the payload boundary, the
header+topic call (leaving a pending reassembly) followed by the call with
the exact remaining payload bytes hands the BLE serializer the same decoded
publish (flags, QoS, topic, packet identifier, payload, payload length) as a
single call on the whole packet. -/
theorem publish_split_equiv (e : Env) (chunk1 chunk2 : List Nat)
    (p : MQTTBLEPublishInfo)
    (h1 : (handleOutgoingPublish e initialPublishInfo chunk1 chunk1.length).newState = p)
    (hpend : p.pending = true)
    (hlen : chunk2.length = p.payloadLength)
    (hpos : 0 < chunk2.length) :
    ∃ r : PubRec,
      (handleOutgoingPublish e p chunk2 chunk2.length).emitted = some r ∧
      (handleOutgoingPublish e initialPublishInfo (chunk1 ++ chunk2)
        (chunk1.length + chunk2.length)).emitted = some r := by
  rw [handleOutgoingPublish_not_pending e initialPublishInfo chunk1 chunk1.length rfl] at h1
  cases hparse : parsePublish chunk1 chunk1.length with
  | error s =>
    rw [hparse] at h1
    simp only [] at h1
    rw [← h1] at hpend
    simp [initialPublishInfo] at hpend
  | ok q =>
    rw [hparse] at h1
    simp only [] at h1
    by_cases hqp : q.pending = true
    · rw [if_pos hqp] at h1
      simp only [] at h1
      subst h1
      -- q is the stored pending slot; dig into the parse that produced it
      unfold parsePublish at hparse
      cases hhd : parsePublishHeader chunk1 with
      | error s => rw [hhd] at hparse; simp at hparse
      | ok hd =>
        rw [hhd] at hparse
        simp only [] at hparse
        by_cases hidx : hd.index < chunk1.length
        · rw [if_pos hidx] at hparse
          simp only [Except.ok.injEq] at hparse
          rw [← hparse] at hqp
          simp at hqp
        · rw [if_neg hidx] at hparse
          simp only [Except.ok.injEq] at hparse
          obtain ⟨hbound, hmono⟩ := parsePublishHeader_props chunk1 hd hhd
          have hidxeq : hd.index = chunk1.length := by omega
          have hple : q.payloadLength = hd.payloadLength := by rw [← hparse]
          have hq2 : chunk2.length = hd.payloadLength := by rw [hlen, hple]
          -- the single-call parse of the reassembled packet
          have hparse2 : parsePublish (chunk1 ++ chunk2) (chunk1.length + chunk2.length) =
              .ok { pending := false
                    dup := hd.dup
                    retain := hd.retain
                    qos := hd.qos
                    topicNameLength := hd.topicNameLength
                    pTopicName := hd.topic
                    packetIdentifier := hd.packetIdentifier
                    payloadLength := hd.payloadLength
                    pPayload := some chunk2 } := by
            unfold parsePublish
            rw [hmono chunk2]
            simp only []
            rw [if_pos (by rw [hidxeq]; omega)]
            rw [hidxeq, List.drop_left, ← hq2, List.take_length]
          rw [handleOutgoingPublish_not_pending e initialPublishInfo (chunk1 ++ chunk2)
            (chunk1.length + chunk2.length) rfl, hparse2]
          simp only []
          rw [handleOutgoingPublish_pending_ok e q chunk2 chunk2.length hqp hlen.symm]
          refine ⟨_, rfl, ?_⟩
          subst hparse
          simp only [mkPubRec, Bool.false_eq_true, if_false, Option.getD_some]
          rw [← hq2, List.take_length]
    · rw [if_neg hqp] at h1
      simp only [] at h1
      rw [← h1] at hpend
      simp [initialPublishInfo] at hpend

/-- A concrete external environment for the outbound path (used to exercise
code paths that do not consult the externals, and as a witness channel that
accepts every frame in full). -/
def envNull : Env :=
  { serializeConnect := fun _ => (.MQTTSuccess, [])
    serializePublish := fun _ => (.MQTTSuccess, [])
    serializePuback := fun _ => (.MQTTSuccess, [])
    serializeSubscribe := fun _ _ => (.MQTTSuccess, [])
    serializeUnsubscribe := fun _ _ => (.MQTTSuccess, [])
    serializePingreq := (.MQTTSuccess, [192, 0])
    serializeDisconnect := (.MQTTSuccess, [224, 0])
    deserializeAck := fun _ => (.MQTTSuccess, 1)
    chanSend := fun f => f.length }

/-- A concrete inbound environment whose channel holds a PUBREC. -/
def inEnvNull : InEnv :=
  { peekType := 80
    peekData := [1, 2]
    deserializeConnack := fun _ => .MQTTBadParameter
    deserializePuback := fun _ => (.MQTTBadParameter, 0)
    deserializePublish := fun _ => (.MQTTBadParameter, {}, 0)
    deserializeSuback := fun _ => (.MQTTBadParameter, 0)
    deserializeUnsuback := fun _ => (.MQTTBadParameter, 0)
    deserializePingresp := fun _ => .MQTTBadParameter }

/-- A QoS0 PUBLISH header+topic chunk split exactly at the payload boundary:
type/flags `0x30`, remaining length 7, topic `"ab"`, 3 payload bytes still to
come. -/
def pubChunk1 : List Nat := [48, 7, 0, 2, 97, 98]

/-- The reassembly slot `parsePublish` leaves behind after `pubChunk1`. -/
def pendingAB : MQTTBLEPublishInfo :=
  { pending := true, topicNameLength := 2, pTopicName := [97, 98], payloadLength := 3 }

/-- C5: for every remaining-length value in 0..268435455, decoding the
encoding returns the value (consuming exactly the encoded bytes), and the
encoder emits at most 4 bytes. -/
theorem varint_roundtrip (n : Nat) (h : n ≤ 268435455) :
    getRemainingLength (encodeRemainingLength n) 0 =
      .ok (n, (encodeRemainingLength n).length) ∧
    (encodeRemainingLength n).length ≤ 4 :=
  ⟨getRemainingLength_encode n h,
   encodeRemainingLength_length_le n 4 (by omega)
     (by have : (128 : Nat) ^ 4 = 268435456 := by norm_num
         omega)⟩

theorem varint_roundtrip_witness :
    (268435455 : Nat) ≤ 268435455 ∧
    (getRemainingLength (encodeRemainingLength 268435455) 0 =
      .ok (268435455, (encodeRemainingLength 268435455).length) ∧
    (encodeRemainingLength 268435455).length ≤ 4) :=
  ⟨le_refl _, varint_roundtrip 268435455 (le_refl _)⟩

/-- C7: PUBACK with packet id 0 is rejected; PUBACK with id 42 is exactly
`[0x40, 2, 0x00, 0x2A]`; SUBACK with id 7 is exactly
`[0x90, 3, 0x00, 0x07, 0x01]` (granted QoS unconditionally 1). -/
theorem ack_serializers_fixed_bytes :
    transportSerializeAck MQTT_PACKET_TYPE_PUBACK 0 = .error .MQTTBadParameter ∧
    transportSerializeAck MQTT_PACKET_TYPE_PUBACK 42 =
      .ok [MQTT_PACKET_TYPE_PUBACK, 2, 0, 42] ∧
    transportSerializeSuback MQTT_PACKET_TYPE_SUBACK 7 =
      .ok [MQTT_PACKET_TYPE_SUBACK, 3, 0, 7, 1] :=
  ⟨rfl, rfl, rfl⟩

/-- C10: on any CONNECT-typed buffer containing no byte equal to `'M'` (77),
the protocol-name scan runs past the end of the buffer: the out-of-range
branch of the embedded parser is reached. -/
theorem connect_scan_out_of_bounds (buf : List Nat) (b0 : Nat)
    (h0 : rb buf 0 = .ok b0) (ht : b0 / 16 = 1)
    (hno : ∀ b ∈ buf, b % 256 ≠ 77) :
    parseConnect buf = .error .MQTTOutOfRange := by
  have hfind : buf.findIdx? (fun b => b % 256 == 77) = none := by
    rw [List.findIdx?_eq_none_iff]
    intro x hx
    simpa using hno x hx
  unfold parseConnect
  rw [h0]
  simp only []
  rw [if_neg (by omega)]
  unfold findMQTT
  rw [hfind]

theorem connect_scan_out_of_bounds_witness :
    parseConnect [16, 0] = .error .MQTTOutOfRange :=
  connect_scan_out_of_bounds [16, 0] 16 rfl rfl (by decide)

/-- C6: a CONNECT packet whose protocol level byte is not 4, whose reserved
(LSB) connect-flag bit is set, or whose client identifier length is 0, never
parses successfully; the parser returns `MQTTBadParameter` (or, when a read
needed to reach the check already falls outside the buffer, the out-of-range
artifact standing for the C undefined behaviour). -/
theorem connect_rejects_invalid (buf : List Nat) (b0 : Nat)
    (h0 : rb buf 0 = .ok b0) (ht : b0 / 16 = 1)
    (hvio : (∃ v, connectLevel buf = .ok v ∧ v ≠ 4) ∨
            (∃ f, connectFlags buf = .ok f ∧ f % 2 = 1) ∨
            connectClientIdLength buf = .ok 0) :
    (parseConnect buf = .error .MQTTBadParameter ∨
     parseConnect buf = .error .MQTTOutOfRange) ∧
    ∀ cfg, parseConnect buf ≠ .ok cfg := by
  have key : parseConnect buf = .error .MQTTBadParameter ∨
      parseConnect buf = .error .MQTTOutOfRange := by
    unfold parseConnect
    rw [h0]
    simp only []
    rw [if_neg (by omega)]
    cases hf : findMQTT buf with
    | error s =>
      have hs : s = .MQTTOutOfRange := by
        unfold findMQTT at hf
        cases hfi : buf.findIdx? (fun b => b % 256 == 77) <;> rw [hfi] at hf <;> simp_all
      subst hs
      right
      rfl
    | ok m =>
      simp only []
      cases h4 : rb buf (m + 4) with
      | error s =>
        have hs := rb_error_eq _ _ _ h4
        subst hs
        right
        rfl
      | ok level =>
        simp only []
        cases h5 : rb buf (m + 5) with
        | error s =>
          have hs := rb_error_eq _ _ _ h5
          subst hs
          right
          rfl
        | ok flags =>
          simp only []
          by_cases hbad : level ≠ 4 ∨ flags % 2 = 1
          · rw [if_pos hbad]
            left
            rfl
          · rw [if_neg hbad]
            push_neg at hbad
            obtain ⟨hlev, hflag⟩ := hbad
            have hvc : connectClientIdLength buf = .ok 0 := by
              rcases hvio with ⟨v, hv, hne⟩ | ⟨f, hfq, hodd⟩ | hvc
              · exfalso
                unfold connectLevel at hv
                rw [hf] at hv
                simp only [] at hv
                rw [h4] at hv
                simp only [Except.ok.injEq] at hv
                exact hne (hv ▸ hlev)
              · exfalso
                unfold connectFlags at hfq
                rw [hf] at hfq
                simp only [] at hfq
                rw [h5] at hfq
                simp only [Except.ok.injEq] at hfq
                rw [← hfq] at hodd
                omega
              · exact hvc
            cases h6 : getIntFromTwoBytes buf (m + 6) with
            | error s =>
              have hs := getIntFromTwoBytes_error_eq _ _ _ h6
              subst hs
              right
              rfl
            | ok ka =>
              simp only []
              have hcid : getIntFromTwoBytes buf (m + 8) = .ok 0 := by
                unfold connectClientIdLength at hvc
                rw [hf] at hvc
                simpa using hvc
              rw [hcid]
              simp only []
              left
              rw [if_pos trivial]
  refine ⟨key, ?_⟩
  intro cfg hok
  rcases key with h | h <;> rw [hok] at h <;> simp at h

/-- A CONNECT packet with protocol level 5. -/
def connBadLevel : List Nat := [16, 12, 0, 4, 77, 81, 84, 84, 5, 0]

theorem connect_rejects_invalid_witness :
    (parseConnect connBadLevel = .error .MQTTBadParameter ∨
     parseConnect connBadLevel = .error .MQTTOutOfRange) ∧
    ∀ cfg, parseConnect connBadLevel ≠ .ok cfg :=
  connect_rejects_invalid connBadLevel 16 rfl rfl (Or.inl ⟨5, rfl, by decide⟩)

/-- C3: while a publish reassembly is pending, a continuation call whose
declared byte count differs from the stored payload length hits the
`configASSERT` (fatal): the buffer is not accepted as the payload, nothing is
handed to the serializer, and the slot is unchanged. -/
theorem pending_length_mismatch_fatal (e : Env) (st : MQTTBLEPublishInfo)
    (buf : List Nat) (L : Nat) (hp : st.pending = true)
    (hne : st.payloadLength ≠ L) :
    (handleOutgoingPublish e st buf L).status = .MQTTAssertFailed ∧
    (handleOutgoingPublish e st buf L).emitted = none ∧
    (handleOutgoingPublish e st buf L).newState = st := by
  unfold handleOutgoingPublish
  simp [hp, hne]

theorem pending_length_mismatch_fatal_witness :
    (handleOutgoingPublish envNull pendingAB [1, 2] 2).status = .MQTTAssertFailed ∧
    (handleOutgoingPublish envNull pendingAB [1, 2] 2).emitted = none ∧
    (handleOutgoingPublish envNull pendingAB [1, 2] 2).newState = pendingAB :=
  pending_length_mismatch_fatal envNull pendingAB [1, 2] 2 rfl (by decide)

/-- A SUBSCRIBE packet whose declared remaining length (`buf[1] - 2 = 5`
after the identifier) is overrun by its single topic filter: the filter
length field claims 10 bytes, so the counting loop consumes 13 > 5. -/
def subOverrunBuf : List Nat :=
  [130, 7, 0, 1, 0, 10, 0, 0, 0, 0, 0, 0, 0, 0, 0, 0, 1]

/-- C4 counterexample: an overrun of the declared remaining length is not a
protocol error.  On `subOverrunBuf` the counting loop (declared remaining
length 5) exceeds it at 13, yet the parse succeeds with one filter. -/
theorem subscribe_overrun_accepted :
    rb subOverrunBuf 1 = .ok 7 ∧
    calculateNumSubs subOverrunBuf 4 5 true = .ok (1, 13) ∧
    parseSubscribe subOverrunBuf true =
      .ok { packetIdentifier := 1, subscriptionCount := 1, totalConsumed := 13,
            subscriptions := [{ topicFilterLength := 10, topicFilterStart := 6, qos := .MQTTQoS1 }] } :=
  ⟨rfl, rfl, rfl⟩

/-- C4 (amended): the counting loop consumes length-prefixed entries until
the declared remaining length is met **or exceeded** — it never leaves a
residual, but an overrun is accepted silently; the only protocol error of
the parse is a resulting filter count of 0. -/
theorem subscribe_exhausts_and_rejects_empty :
    (∀ (buf : List Nat) (base rem : Nat) (sub : Bool) (fuel t0 n0 n t : Nat),
      calculateNumSubsLoop buf base rem sub fuel t0 n0 = .ok (n, t) → rem ≤ t) ∧
    (∀ (buf : List Nat) (sub : Bool) (r : SubParseResult),
      parseSubscribe buf sub = .ok r → r.subscriptionCount ≠ 0) ∧
    (∀ (buf : List Nat) (sub : Bool) (pid b1 t : Nat),
      getIntFromTwoBytes buf 2 = .ok pid → rb buf 1 = .ok b1 →
      calculateNumSubs buf 4 ((b1 + 254) % 256) sub = .ok (0, t) →
      parseSubscribe buf sub = .error .MQTTBadParameter) := by
  refine ⟨?_, ?_, ?_⟩
  · intro buf base rem sub fuel
    induction fuel with
    | zero => intro t0 n0 n t h; simp [calculateNumSubsLoop] at h
    | succ fuel ih =>
      intro t0 n0 n t h
      unfold calculateNumSubsLoop at h
      by_cases hc : t0 < rem
      · rw [if_pos hc] at h
        cases hg : getIntFromTwoBytes buf (base + t0) with
        | error s => rw [hg] at h; simp at h
        | ok len =>
          rw [hg] at h
          exact ih _ _ _ _ h
      · rw [if_neg hc] at h
        simp only [Except.ok.injEq, Prod.mk.injEq] at h
        omega
  · intro buf sub r h
    unfold parseSubscribe at h
    cases h2 : getIntFromTwoBytes buf 2 with
    | error s => rw [h2] at h; simp at h
    | ok pid =>
      rw [h2] at h
      simp only [] at h
      cases h1 : rb buf 1 with
      | error s => rw [h1] at h; simp at h
      | ok b1 =>
        rw [h1] at h
        simp only [] at h
        cases hc : calculateNumSubs buf 4 ((b1 + 254) % 256) sub with
        | error s => rw [hc] at h; simp at h
        | ok ct =>
          obtain ⟨count, total⟩ := ct
          rw [hc] at h
          simp only [] at h
          by_cases hz : count = 0
          · rw [if_pos hz] at h; simp at h
          · rw [if_neg hz] at h
            cases hp : populateSubs buf sub 4 count with
            | error s => rw [hp] at h; simp at h
            | ok subs =>
              rw [hp] at h
              simp only [Except.ok.injEq] at h
              rw [← h]
              simpa using hz
  · intro buf sub pid b1 t h2 h1 hc
    unfold parseSubscribe
    rw [h2]
    simp only []
    rw [h1]
    simp only []
    rw [hc]
    simp only []
    rw [if_pos trivial]

theorem subscribe_exhausts_and_rejects_empty_witness :
    (5 : Nat) ≤ 13 ∧
    parseSubscribe [130, 2, 0, 1] true = .error .MQTTBadParameter :=
  ⟨subscribe_exhausts_and_rejects_empty.1 subOverrunBuf 4 5 true 131072 0 0 1 13 rfl,
   subscribe_exhausts_and_rejects_empty.2.2 [130, 2, 0, 1] true 1 2 0 rfl rfl rfl⟩

/-- C1 (amended): the byte count returned by the outbound send is the full
input length both when a frame is handed to the channel and fully accepted
**and** when processing succeeded without a frame (PUBLISH payload still
pending); it is 0 when a handler fails or the channel accepts fewer bytes
than the frame.  A frame reaches the channel exactly when the dispatch
succeeds with a positive size. -/
theorem send_byte_count (e : Env) (st : MQTTBLEPublishInfo) (buf : List Nat)
    (L : Nat) :
    (IotBleMqttTransportSend e st buf L).ret =
      (if (dispatchSend e st buf L).status = .MQTTSuccess ∧
          ((dispatchSend e st buf L).size = 0 ∨
            e.chanSend (dispatchSend e st buf L).frame = (dispatchSend e st buf L).size)
        then L else 0) ∧
    (IotBleMqttTransportSend e st buf L).sent =
      (if (dispatchSend e st buf L).status = .MQTTSuccess ∧
          0 < (dispatchSend e st buf L).size
        then [(dispatchSend e st buf L).frame] else []) := by
  unfold IotBleMqttTransportSend
  by_cases h1 : (dispatchSend e st buf L).status = .MQTTSuccess
  · by_cases h2 : 0 < (dispatchSend e st buf L).size
    · have h2' : (dispatchSend e st buf L).size ≠ 0 := by omega
      by_cases h3 : e.chanSend (dispatchSend e st buf L).frame = (dispatchSend e st buf L).size
      · simp [h1, h2, h2', h3]
      · simp [h1, h2, h2', h3]
    · have hz : (dispatchSend e st buf L).size = 0 := by omega
      simp [h1, h2, hz]
  · simp [h1]

/-- C1 counterexample: the header+topic chunk of a split PUBLISH leaves the
payload pending and hands no frame to the channel, yet the send reports the
full input length 6, not 0. -/
theorem send_pending_full_count :
    (IotBleMqttTransportSend envNull initialPublishInfo pubChunk1 6).ret = 6 ∧
    (IotBleMqttTransportSend envNull initialPublishInfo pubChunk1 6).sent = [] ∧
    (IotBleMqttTransportSend envNull initialPublishInfo pubChunk1 6).newState.pending
      = true :=
  ⟨rfl, rfl, rfl⟩

/-- C8: PUBREC, PUBREL and PUBCOMP always fail — outbound (no reassembly
pending, type nibble 5, 6 or 7) with `MQTTSendFailed`, zero bytes reported
and nothing handed to the channel; inbound with `MQTTRecvFailed`, nothing
queued and nothing drained. -/
theorem qos2_always_rejected :
    (∀ (e : Env) (st : MQTTBLEPublishInfo) (buf : List Nat) (L : Nat),
      st.pending = false →
      buf.headD 0 % 256 / 16 = 5 ∨ buf.headD 0 % 256 / 16 = 6 ∨
        buf.headD 0 % 256 / 16 = 7 →
      (dispatchSend e st buf L).status = .MQTTSendFailed ∧
      (IotBleMqttTransportSend e st buf L).ret = 0 ∧
      (IotBleMqttTransportSend e st buf L).sent = []) ∧
    (∀ e : InEnv,
      e.peekType = MQTT_PACKET_TYPE_PUBREC ∨ e.peekType = MQTT_PACKET_TYPE_PUBREL ∨
        e.peekType = MQTT_PACKET_TYPE_PUBCOMP →
      (IotBleMqttTransportAcceptData e).status = .MQTTRecvFailed ∧
      (IotBleMqttTransportAcceptData e).queued = [] ∧
      (IotBleMqttTransportAcceptData e).flushed = 0) := by
  constructor
  · intro e st buf L hp ht
    have hdisp : dispatchSend e st buf L =
        { status := .MQTTSendFailed, frame := [], size := 0, newState := st,
          emitted := none } := by
      unfold dispatchSend
      rcases ht with h | h | h <;> simp only [List.headD_eq_head?_getD] at h <;>
        simp [hp, h]
    refine ⟨by rw [hdisp], ?_, ?_⟩ <;> unfold IotBleMqttTransportSend <;>
      rw [hdisp] <;> simp
  · intro e ht
    have hah : acceptHandle e { type := e.peekType, remainingData := e.peekData } =
        (.MQTTRecvFailed, []) := by
      unfold acceptHandle
      rcases ht with h | h | h <;>
        simp [h, MQTT_PACKET_TYPE_CONNACK, MQTT_PACKET_TYPE_PUBLISH,
          MQTT_PACKET_TYPE_PUBACK, MQTT_PACKET_TYPE_SUBACK, MQTT_PACKET_TYPE_UNSUBACK,
          MQTT_PACKET_TYPE_PINGRESP, MQTT_PACKET_TYPE_PUBREC, MQTT_PACKET_TYPE_PUBREL,
          MQTT_PACKET_TYPE_PUBCOMP]
    unfold IotBleMqttTransportAcceptData
    simp only []
    rw [hah]
    simp

theorem qos2_always_rejected_witness :
    ((dispatchSend envNull initialPublishInfo [80, 2, 0, 1] 4).status = .MQTTSendFailed ∧
     (IotBleMqttTransportSend envNull initialPublishInfo [80, 2, 0, 1] 4).ret = 0 ∧
     (IotBleMqttTransportSend envNull initialPublishInfo [80, 2, 0, 1] 4).sent = []) ∧
    ((IotBleMqttTransportAcceptData inEnvNull).status = .MQTTRecvFailed ∧
     (IotBleMqttTransportAcceptData inEnvNull).queued = [] ∧
     (IotBleMqttTransportAcceptData inEnvNull).flushed = 0) :=
  ⟨qos2_always_rejected.1 envNull initialPublishInfo [80, 2, 0, 1] 4 rfl
     (Or.inl (by decide)),
   qos2_always_rejected.2 inEnvNull (Or.inl rfl)⟩

/-- Every push into the byte queue is guarded by success: an erring handler
queues nothing. -/
theorem acceptHandle_error_no_queue (e : InEnv) (pkt : MQTTPacketInfo)
    (h : (acceptHandle e pkt).1 ≠ .MQTTSuccess) : (acceptHandle e pkt).2 = [] := by
  revert h
  unfold acceptHandle
  repeat' split
  all_goals intro h
  all_goals simp only [] at h ⊢
  all_goals try split_ifs at h ⊢
  all_goals try (repeat' split at h)
  all_goals simp_all

/-- C9: if any inbound handler errs, no bytes are drained from the channel
and no bytes enter the byte queue; on success exactly the peeked byte count
is drained, whatever was reconstructed into the queue. -/
theorem accept_error_keeps_channel (e : InEnv) :
    ((IotBleMqttTransportAcceptData e).status ≠ .MQTTSuccess →
      (IotBleMqttTransportAcceptData e).queued = [] ∧
      (IotBleMqttTransportAcceptData e).flushed = 0) ∧
    ((IotBleMqttTransportAcceptData e).status = .MQTTSuccess →
      (IotBleMqttTransportAcceptData e).flushed = e.peekData.length) := by
  have hs : (IotBleMqttTransportAcceptData e).status =
      (acceptHandle e { type := e.peekType, remainingData := e.peekData }).1 := rfl
  have hq : (IotBleMqttTransportAcceptData e).queued =
      (acceptHandle e { type := e.peekType, remainingData := e.peekData }).2 := rfl
  have hf : (IotBleMqttTransportAcceptData e).flushed =
      (if (acceptHandle e { type := e.peekType, remainingData := e.peekData }).1
          = .MQTTSuccess then e.peekData.length else 0) := rfl
  constructor
  · intro h
    rw [hs] at h
    refine ⟨hq ▸ acceptHandle_error_no_queue e _ h, ?_⟩
    rw [hf, if_neg h]
  · intro h
    rw [hs] at h
    rw [hf, if_pos h]

theorem accept_error_keeps_channel_witness :
    (IotBleMqttTransportAcceptData inEnvNull).queued = [] ∧
    (IotBleMqttTransportAcceptData inEnvNull).flushed = 0 :=
  (accept_error_keeps_channel inEnvNull).1 (by decide)

theorem publish_split_equiv_witness :
    ∃ r : PubRec,
      (handleOutgoingPublish envNull pendingAB [120, 121, 122]
        ([120, 121, 122] : List Nat).length).emitted = some r ∧
      (handleOutgoingPublish envNull initialPublishInfo (pubChunk1 ++ [120, 121, 122])
        (pubChunk1.length + ([120, 121, 122] : List Nat).length)).emitted = some r :=
  publish_split_equiv envNull pubChunk1 [120, 121, 122] pendingAB rfl rfl rfl
    (by decide)
